import Mathlib

/-! # Musique: `PlaylistView` (src/playlistview.cpp)

A shallow embedding of the slots of `PlaylistView`.  Each slot is a function on
the state it reads and writes, by its own body: the signals a call raises, and
the slots connected to them, are not followed.  The collaborators that are not defined in
`playlistview.cpp` (the `PlaylistModel`, the font metrics) are parameters of
the slots; the toolkit objects the slots talk to (`QAction`, `QModelIndex`,
`QItemSelectionModel`, `QTime`, `QString`) are rendered by the part of their
documented behaviour that the slots use.
-/

namespace Musique

/-! ## Toolkit values -/

/-- A `Track*`: tracks are compared by identity. -/
abbrev Track := Nat

/-- A `QModelIndex`: row, column and whether it refers to a model.  The default
constructed (invalid) index is `QModelIndex()` = row -1, column -1, no model. -/
structure QModelIndex where
  row : Int
  column : Int
  model : Bool
deriving DecidableEq, Repr

/-- Qt `QModelIndex::isValid`: `(r >= 0) && (c >= 0) && (m != 0)`. -/
def QModelIndex.isValid (i : QModelIndex) : Bool :=
  decide (0 ≤ i.row) && decide (0 ≤ i.column) && i.model

/-- Qt `QItemSelection`, as the list of indexes it covers. -/
abbrev QItemSelection := List QModelIndex

/-- Arithmetic on a C++ `int`: the value of a result brought back into 32 bits. -/
def wrap32 (x : Int) : Int :=
  (x + 2147483648) % 4294967296 - 2147483648

/-- Qt `QString::number(int)`: the decimal text of `n`. -/
def number (n : Int) : String :=
  toString n

/-- Qt `QString::rightJustified(width, fill, true)`: padded on the left with `fill`
up to `width` characters, and cut to `width` characters when longer. -/
def rightJustified (s : String) (width : Nat) (fill : Char) : String :=
  String.mk (List.replicate (width - s.data.length) fill ++ s.data.take width)

/-- Qt `QObject::tr` with no translation installed: the source text. -/
def tr (s : String) : String :=
  s

/-- Qt `QString::arg(a1, a2)` on the characters of the template: every `%1` becomes
`a1` and every `%2` becomes `a2`, in one pass (inserted text is not rescanned). -/
def argChars (a1 a2 : String) : List Char → List Char
  | '%' :: '1' :: r => a1.data ++ argChars a1 a2 r
  | '%' :: '2' :: r => a2.data ++ argChars a1 a2 r
  | c :: r => c :: argChars a1 a2 r
  | [] => []

/-- Call `template.arg(a1, a2)`. -/
def arg (template a1 a2 : String) : String :=
  String.mk (argChars a1 a2 template.data)

/-! ### `QTime` (Qt 4) -/

/-- Constant `MSECS_PER_DAY`. -/
def MSECS_PER_DAY : Int := 86400000

/-- Constant `MSECS_PER_HOUR`. -/
def MSECS_PER_HOUR : Int := 3600000

/-- Constant `MSECS_PER_MIN`. -/
def MSECS_PER_MIN : Int := 60000

/-- Constant `SECS_PER_MIN`. -/
def SECS_PER_MIN : Int := 60

/-- A `QTime`: milliseconds since midnight, `NullTime` = -1 for the null time. -/
structure QTime where
  mds : Int
deriving DecidableEq, Repr

/-- Qt `QTime()`: the null time. -/
def QTime.null : QTime := ⟨-1⟩

/-- Qt `QTime::ds`: the milliseconds since midnight, 0 for the null time. -/
def QTime.ds (t : QTime) : Int :=
  if t.mds = -1 then 0 else t.mds

/-- Qt `QTime::isValid`. -/
def QTime.isValid (t : QTime) : Bool :=
  decide (-1 < t.mds) && decide (t.mds < MSECS_PER_DAY)

/-- Qt `QTime::addMSecs` of Qt 4: the time `ms` milliseconds later, wrapping at
midnight; the null time counts as midnight. -/
def QTime.addMSecs (t : QTime) (ms : Int) : QTime :=
  if ms < 0 then
    let negdays := Int.tdiv (wrap32 (MSECS_PER_DAY - ms)) MSECS_PER_DAY
    ⟨Int.tmod (wrap32 (wrap32 (t.ds + ms) + wrap32 (negdays * MSECS_PER_DAY))) MSECS_PER_DAY⟩
  else
    ⟨Int.tmod (wrap32 (t.ds + ms)) MSECS_PER_DAY⟩

/-- Qt `QTime::addSecs`: `addMSecs(s * 1000)`. -/
def QTime.addSecs (t : QTime) (s : Int) : QTime :=
  t.addMSecs (wrap32 (s * 1000))

/-- Qt `QTime::hour`. -/
def QTime.hour (t : QTime) : Int :=
  Int.tdiv t.ds MSECS_PER_HOUR

/-- Qt `QTime::minute`. -/
def QTime.minute (t : QTime) : Int :=
  Int.tdiv (Int.tmod t.ds MSECS_PER_HOUR) MSECS_PER_MIN

/-- Qt `QTime::second`. -/
def QTime.second (t : QTime) : Int :=
  Int.tmod (Int.tdiv t.ds 1000) SECS_PER_MIN

/-- The expansion of a `QTime::toString` format made of the expressions `h`,
`hh`, `m`, `mm`, `s`, `ss` and separator characters: `h`, `m`, `s` are the field
without a leading zero, `hh`, `mm`, `ss` the field on two digits. -/
def QTime.fmt (t : QTime) : List Char → List Char
  | 'h' :: 'h' :: r => (rightJustified (number t.hour) 2 '0').data ++ QTime.fmt t r
  | 'h' :: r => (number t.hour).data ++ QTime.fmt t r
  | 'm' :: 'm' :: r => (rightJustified (number t.minute) 2 '0').data ++ QTime.fmt t r
  | 'm' :: r => (number t.minute).data ++ QTime.fmt t r
  | 's' :: 's' :: r => (rightJustified (number t.second) 2 '0').data ++ QTime.fmt t r
  | 's' :: r => (number t.second).data ++ QTime.fmt t r
  | c :: r => c :: QTime.fmt t r
  | [] => []

/-- Qt `QTime::toString(format)`: empty for an invalid time. -/
def QTime.toString (t : QTime) (format : String) : String :=
  if t.isValid then String.mk (t.fmt format.data) else ""

/-- The enabled flag of every action of `The::globalActions()`, by name. -/
abbrev GlobalActions := String → Bool

/-- Call `The::globalActions()->value(name)->setEnabled(b)`. -/
def setEnabled (acts : GlobalActions) (name : String) (b : Bool) : GlobalActions :=
  fun k => if k = name then b else acts k

/-- A call made on the `PlaylistModel` that changes it. -/
inductive ModelCall where
  | setActiveRow (row : Int) (manual : Bool)
  | removeIndexes (indexes : List QModelIndex)
  | move (indexes : List QModelIndex) (up : Bool)
deriving DecidableEq, Repr

/-- The member functions of `PlaylistModel` that `PlaylistView` calls, over a
model state `M`.  `playlistmodel.cpp` is not among the sources, so the view is
embedded over every implementation of them. -/
structure PlaylistModel (M : Type) where
  rowCount : M → Int
  rowExists : M → Int → Bool
  setActiveRow : M → Int → Bool → M
  removeIndexes : M → List QModelIndex → M
  move : M → List QModelIndex → Bool → M
  indexForTrack : M → Track → QModelIndex
  getTotalLength : M → Int

/-- The state the slots of `PlaylistView` read and write: the model behind
`playlistModel`, the selection held by `selectionModel()`, the global actions,
the status tip, the empty-state message and the widget size; `requests` records
the mutating calls made on the model and `warnings` the `qWarning()` lines. -/
structure PlaylistView (M : Type) where
  playlistModel : M
  selection : List QModelIndex
  actions : GlobalActions
  statusTip : String
  emptyMessage : String
  width : Int
  height : Int
  requests : List ModelCall
  warnings : List String

/-- Call `selectionModel()->hasSelection()`. -/
def hasSelection {M : Type} (v : PlaylistView M) : Bool :=
  !v.selection.isEmpty

/-- Call `selectionModel()->selectedIndexes()`. -/
def selectedIndexes {M : Type} (v : PlaylistView M) : List QModelIndex :=
  v.selection

/-! ## Slots -/

/-- Slot `PlaylistView::selectionChanged` (lines 109-116).  The call of
`QListView::selectionChanged` repaints the view; it does not touch the actions. -/
def selectionChanged {M : Type} (v : PlaylistView M)
    (_selected _deselected : QItemSelection) : PlaylistView M :=
  let gotSelection := hasSelection v
  let a1 := setEnabled v.actions "remove" gotSelection
  let a2 := setEnabled a1 "moveUp" gotSelection
  let a3 := setEnabled a2 "moveDown" gotSelection
  { v with actions := a3 }

/-- The text of the local `playlistLength` of `updatePlaylistActions`
(lines 134-138). -/
def playlistLength (totalLength : Int) : String :=
  if totalLength > 3600 then
    (QTime.null.addSecs totalLength).toString "h:mm:ss"
  else
    (QTime.null.addSecs totalLength).toString "m:ss"

/-- Slot `PlaylistView::updatePlaylistActions` (lines 118-142). -/
def updatePlaylistActions {M : Type} (P : PlaylistModel M) (v : PlaylistView M) :
    PlaylistView M :=
  let rowCount := P.rowCount v.playlistModel
  let isPlaylistEmpty := decide (rowCount < 1)
  let a1 := setEnabled v.actions "clearPlaylist" (!isPlaylistEmpty)
  let a2 := if !isPlaylistEmpty then setEnabled a1 "play" true else a1
  let a3 := setEnabled a2 "skip" (decide (rowCount > 1))
  let a4 := setEnabled a3 "previous" (decide (rowCount > 1))
  let tip :=
    if isPlaylistEmpty then
      tr "Playlist is empty"
    else
      let totalLength := P.getTotalLength v.playlistModel
      arg (tr "%1 tracks - Total length is %2") (number rowCount) (playlistLength totalLength)
  { v with actions := a4, statusTip := tip }

/-- Slot `PlaylistView::itemActivated` (lines 88-91). -/
def itemActivated {M : Type} (P : PlaylistModel M) (v : PlaylistView M)
    (index : QModelIndex) : PlaylistView M :=
  if P.rowExists v.playlistModel index.row then
    { v with
      playlistModel := P.setActiveRow v.playlistModel index.row true,
      requests := v.requests ++ [ModelCall.setActiveRow index.row true] }
  else v

/-- Slot `PlaylistView::removeSelected` (lines 93-97). -/
def removeSelected {M : Type} (P : PlaylistModel M) (v : PlaylistView M) : PlaylistView M :=
  if !hasSelection v then v
  else
    let indexes := selectedIndexes v
    { v with
      playlistModel := P.removeIndexes v.playlistModel indexes,
      requests := v.requests ++ [ModelCall.removeIndexes indexes] }

/-- Call `selectionModel()->select(index, QItemSelectionModel::Select)`: the index
joins the selection; an index already selected stays selected once. -/
def select (selection : List QModelIndex) (index : QModelIndex) : List QModelIndex :=
  if index ∈ selection then selection else selection ++ [index]

/-- The body of the `foreach` of `selectTracks` (lines 102-105) for one track. -/
def selectTrack {M : Type} (P : PlaylistModel M) (v : PlaylistView M) (track : Track) :
    PlaylistView M :=
  let index := P.indexForTrack v.playlistModel track
  if index.isValid then
    { v with selection := select v.selection index }
  else
    { v with warnings := v.warnings ++
        ["void PlaylistView::selectTracks(QList<Track*>) Invalid index"] }

/-- Slot `PlaylistView::selectTracks` (lines 99-107). -/
def selectTracks {M : Type} (P : PlaylistModel M) (v : PlaylistView M)
    (tracks : List Track) : PlaylistView M :=
  tracks.foldl (selectTrack P) { v with selection := [] }

/-- Slot `PlaylistView::moveUpSelected` (lines 144-149). -/
def moveUpSelected {M : Type} (P : PlaylistModel M) (v : PlaylistView M) : PlaylistView M :=
  if !hasSelection v then v
  else
    let indexes := selectedIndexes v
    { v with
      playlistModel := P.move v.playlistModel indexes true,
      requests := v.requests ++ [ModelCall.move indexes true] }

/-- Slot `PlaylistView::moveDownSelected` (lines 151-155). -/
def moveDownSelected {M : Type} (P : PlaylistModel M) (v : PlaylistView M) : PlaylistView M :=
  if !hasSelection v then v
  else
    let indexes := selectedIndexes v
    { v with
      playlistModel := P.move v.playlistModel indexes false,
      requests := v.requests ++ [ModelCall.move indexes false] }

/-- A `QSize`. -/
structure QSize where
  width : Int
  height : Int
deriving DecidableEq, Repr

/-- A `QPoint`. -/
structure QPoint where
  x : Int
  y : Int
deriving DecidableEq, Repr

/-- A `QRect`, held as Qt holds it: the left, top, right and bottom pixel. -/
structure QRect where
  x1 : Int
  y1 : Int
  x2 : Int
  y2 : Int
deriving DecidableEq, Repr

/-- Qt `QRect(const QPoint &topLeft, const QSize &size)`. -/
def QRect.ofTopLeftSize (topLeft : QPoint) (size : QSize) : QRect :=
  ⟨topLeft.x, topLeft.y, topLeft.x + size.width - 1, topLeft.y + size.height - 1⟩

/-- Qt `QRect::width`. -/
def QRect.width (r : QRect) : Int :=
  r.x2 - r.x1 + 1

/-- Qt `QRect::height`. -/
def QRect.height (r : QRect) : Int :=
  r.y2 - r.y1 + 1

/-- Qt `QRect::topLeft`. -/
def QRect.topLeft (r : QRect) : QPoint :=
  ⟨r.x1, r.y1⟩

/-- A `painter.drawText(rect, Qt::AlignCenter, text, ...)` call. -/
structure DrawText where
  rect : QRect
  text : String
deriving DecidableEq, Repr

/-- Handler `PlaylistView::paintEvent` (lines 181-202), after the base class has painted:
the text it draws, if any.  `fontMetricsSize` is
`QFontMetrics(painter.font()).size(Qt::TextSingleLine, _)`.  A widget is at most
`QWIDGETSIZE_MAX` = 16777215 pixels wide and high and a text has a size of 0 or
more, so the two differences stay inside an `int`; `/` is the truncating
division of C++. -/
def paintEvent {M : Type} (P : PlaylistModel M) (fontMetricsSize : String → QSize)
    (v : PlaylistView M) : Option DrawText :=
  if P.rowCount v.playlistModel == 0 && !v.emptyMessage.isEmpty then
    let textSize := fontMetricsSize v.emptyMessage
    let centerPoint : QPoint :=
      ⟨Int.tdiv (v.width - textSize.width) 2, Int.tdiv (v.height - textSize.height) 2⟩
    let centerRect := QRect.ofTopLeftSize centerPoint textSize
    some ⟨centerRect, v.emptyMessage⟩
  else none

/-! ## A playlist model

`playlistmodel.cpp` is not among the sources.  The model below follows what the
specification says of the collaborator; it is the concrete model the slots are
run against. -/

/-- Modelled from the spec: the state of the `PlaylistModel` collaborator, which
`playlistmodel.cpp` defines: the rows in order, each a track with its length in
seconds, and the active row (-1 when no row is active). -/
structure Playlist where
  rows : List (Track × Int)
  activeRow : Int
deriving DecidableEq, Repr

/-- Modelled from the spec: the rows left by "remove-by-indices" on a model that
deletes precisely the rows it is given; `k` is the row number of the first row. -/
def deleteRowsFrom {α : Type} (indexes : List QModelIndex) : Int → List α → List α
  | _, [] => []
  | k, a :: r =>
    if k ∈ indexes.map QModelIndex.row then deleteRowsFrom indexes (k + 1) r
    else a :: deleteRowsFrom indexes (k + 1) r

/-- Modelled from the spec: "remove-by-indices", see `deleteRowsFrom`. -/
def deleteRows {α : Type} (indexes : List QModelIndex) (rows : List α) : List α :=
  deleteRowsFrom indexes 0 rows

/-- Modelled from the spec: every row with the mark of being among `indexes`;
`k` is the row number of the first row. -/
def markRowsFrom {α : Type} (indexes : List QModelIndex) : Int → List α → List (α × Bool)
  | _, [] => []
  | k, a :: r => (a, decide (k ∈ indexes.map QModelIndex.row)) :: markRowsFrom indexes (k + 1) r

/-- Modelled from the spec: "reorder the selected rows one position toward the
start": a marked row changes places with the unmarked row `a` before it. -/
def raiseMarked {α : Type} : (α × Bool) → List (α × Bool) → List (α × Bool)
  | a, [] => [a]
  | a, b :: r => if !a.2 && b.2 then b :: raiseMarked a r else a :: raiseMarked b r

/-- Modelled from the spec: "move-by-indices(direction)" on the rows: towards
the start when `up`, towards the end otherwise. -/
def moveRows {α : Type} (indexes : List QModelIndex) (up : Bool) (rows : List α) : List α :=
  let marked := markRowsFrom indexes 0 rows
  let ordered := if up then marked else marked.reverse
  let moved :=
    match ordered with
    | [] => []
    | a :: r => raiseMarked a r
  (if up then moved else moved.reverse).map Prod.fst

/-- Modelled from the spec: "index-for-track": the index of the first row that
holds the track, the invalid index when no row does. -/
def findTrackFrom (track : Track) : Int → List (Track × Int) → QModelIndex
  | _, [] => ⟨-1, -1, false⟩
  | k, a :: r => if a.1 = track then ⟨k, 0, true⟩ else findTrackFrom track (k + 1) r

/-- Modelled from the spec: the operations of the `PlaylistModel` collaborator
("row count, row existence check, set-active-row, remove-by-indices,
move-by-indices(direction), index-for-track, total-duration") on a `Playlist`. -/
def playlistOps : PlaylistModel Playlist where
  rowCount m := (m.rows.length : Int)
  rowExists m row := decide (0 ≤ row) && decide (row < (m.rows.length : Int))
  setActiveRow m row _ :=
    if decide (0 ≤ row) && decide (row < (m.rows.length : Int)) then { m with activeRow := row }
    else m
  removeIndexes m indexes := { m with rows := deleteRows indexes m.rows }
  move m indexes up := { m with rows := moveRows indexes up m.rows }
  indexForTrack m track := findTrackFrom track 0 m.rows
  getTotalLength m := (m.rows.map Prod.snd).sum

/-- A view on the given playlist with the given selection: every action
disabled, no status tip, no message, a 400 x 300 widget. -/
def viewOf (m : Playlist) (selection : List QModelIndex) : PlaylistView Playlist :=
  { playlistModel := m, selection := selection, actions := fun _ => false, statusTip := "",
    emptyMessage := "", width := 400, height := 300, requests := [], warnings := [] }

/-! ## Reading a duration back

The specification states that the status tip reports the total length by
reading the duration text back as hours, minutes and seconds.  The reader below
is that reading; it is not part of `playlistview.cpp`. -/

/-- The number written by a run of decimal digits; nothing for an empty run or a
run with another character in it. -/
def readNumber (cs : List Char) : Option Int :=
  if !cs.isEmpty && cs.all Char.isDigit then
    some (cs.foldl (fun a c => 10 * a + ((c.toNat : Int) - 48)) 0)
  else none

/-- The fields of a text, which colons separate. -/
def splitColon : List Char → List (List Char)
  | [] => [[]]
  | c :: r =>
    if c = ':' then [] :: splitColon r
    else
      match splitColon r with
      | f :: fs => (c :: f) :: fs
      | [] => [[c]]

/-- The seconds a duration text stands for: `M:SS` is M minutes and SS seconds
(no hours), `H:MM:SS` is H hours, MM minutes and SS seconds; nothing for a text
of another form. -/
def readDuration (s : String) : Option Int :=
  match (splitColon s.data).map readNumber with
  | [some m, some sec] => some (m * 60 + sec)
  | [some h, some m, some sec] => some (h * 3600 + m * 60 + sec)
  | _ => none

/-! ## Theorems -/

theorem setEnabled_same (acts : GlobalActions) (name : String) (b : Bool) :
    setEnabled acts name b name = b := by
  simp [setEnabled]

theorem setEnabled_other (acts : GlobalActions) (name k : String) (b : Bool) (h : k ≠ name) :
    setEnabled acts name b k = acts k := by
  simp [setEnabled, h]

theorem hasSelection_eq_true_iff {M : Type} (v : PlaylistView M) :
    hasSelection v = true ↔ v.selection ≠ [] := by
  cases hs : v.selection <;> simp [hasSelection, hs]

/-- C1: after `selectionChanged`, each of the actions remove, moveUp and moveDown
is enabled if and only if the selection is non-empty: the new enabled value of
each is `hasSelection`, whatever it was before and whatever the model holds. -/
theorem selectionChanged_actions {M : Type} (v : PlaylistView M)
    (selected deselected : QItemSelection) :
    (selectionChanged v selected deselected).actions "remove" = hasSelection v ∧
    (selectionChanged v selected deselected).actions "moveUp" = hasSelection v ∧
    (selectionChanged v selected deselected).actions "moveDown" = hasSelection v ∧
    ((selectionChanged v selected deselected).actions "remove" = true ↔ v.selection ≠ []) ∧
    ((selectionChanged v selected deselected).actions "moveUp" = true ↔ v.selection ≠ []) ∧
    ((selectionChanged v selected deselected).actions "moveDown" = true ↔ v.selection ≠ []) := by
  have h1 : (selectionChanged v selected deselected).actions "remove" = hasSelection v := by
    simp [selectionChanged, setEnabled]
  have h2 : (selectionChanged v selected deselected).actions "moveUp" = hasSelection v := by
    simp [selectionChanged, setEnabled]
  have h3 : (selectionChanged v selected deselected).actions "moveDown" = hasSelection v := by
    simp [selectionChanged, setEnabled]
  refine ⟨h1, h2, h3, ?_, ?_, ?_⟩
  · rw [h1]; exact hasSelection_eq_true_iff v
  · rw [h2]; exact hasSelection_eq_true_iff v
  · rw [h3]; exact hasSelection_eq_true_iff v

/-- C2: after `updatePlaylistActions`, clearPlaylist is enabled if and only if
the row count is greater than 0, and skip and previous are each enabled if and
only if the row count is greater than 1, whatever the actions and the selection
were before; with one row clearPlaylist is enabled, skip and previous are not. -/
theorem updatePlaylistActions_clear_skip_previous {M : Type} (P : PlaylistModel M)
    (v : PlaylistView M) :
    ((updatePlaylistActions P v).actions "clearPlaylist" = true ↔
      P.rowCount v.playlistModel > 0) ∧
    ((updatePlaylistActions P v).actions "skip" = true ↔ P.rowCount v.playlistModel > 1) ∧
    ((updatePlaylistActions P v).actions "previous" = true ↔
      P.rowCount v.playlistModel > 1) ∧
    (P.rowCount v.playlistModel = 1 →
      (updatePlaylistActions P v).actions "clearPlaylist" = true ∧
      (updatePlaylistActions P v).actions "skip" = false ∧
      (updatePlaylistActions P v).actions "previous" = false) := by
  have hc : (updatePlaylistActions P v).actions "clearPlaylist" =
      !decide (P.rowCount v.playlistModel < 1) := by
    by_cases h : P.rowCount v.playlistModel < 1 <;>
      simp [updatePlaylistActions, setEnabled, h]
  have hs : (updatePlaylistActions P v).actions "skip" =
      decide (P.rowCount v.playlistModel > 1) := by
    simp [updatePlaylistActions, setEnabled]
  have hp : (updatePlaylistActions P v).actions "previous" =
      decide (P.rowCount v.playlistModel > 1) := by
    simp [updatePlaylistActions, setEnabled]
  rw [hc, hs, hp]
  refine ⟨?_, ?_, ?_, ?_⟩
  · simp; omega
  · simp
  · simp
  · intro h1; simp [h1]

theorem updatePlaylistActions_clear_skip_previous_witness :
    playlistOps.rowCount (viewOf ⟨[(10, 100)], 0⟩ []).playlistModel = 1 ∧
    (updatePlaylistActions playlistOps (viewOf ⟨[(10, 100)], 0⟩ [])).actions "clearPlaylist" =
      true ∧
    (updatePlaylistActions playlistOps (viewOf ⟨[(10, 100)], 0⟩ [])).actions "skip" = false ∧
    (updatePlaylistActions playlistOps (viewOf ⟨[(10, 100)], 0⟩ [])).actions "previous" = false :=
  ⟨by decide,
    (updatePlaylistActions_clear_skip_previous playlistOps
      (viewOf ⟨[(10, 100)], 0⟩ [])).2.2.2 (by decide)⟩

/-- C8: after `updatePlaylistActions`, play is enabled when the row count is
greater than 0 and keeps its previous state when the row count is 0 (or less):
`updatePlaylistActions` never disables play, so a play action that was enabled
is still enabled after the playlist became empty. -/
theorem updatePlaylistActions_play {M : Type} (P : PlaylistModel M) (v : PlaylistView M) :
    (P.rowCount v.playlistModel > 0 → (updatePlaylistActions P v).actions "play" = true) ∧
    (P.rowCount v.playlistModel ≤ 0 →
      (updatePlaylistActions P v).actions "play" = v.actions "play") ∧
    (v.actions "play" = true → (updatePlaylistActions P v).actions "play" = true) := by
  have key : (updatePlaylistActions P v).actions "play" =
      (if P.rowCount v.playlistModel < 1 then v.actions "play" else true) := by
    by_cases h : P.rowCount v.playlistModel < 1 <;>
      simp [updatePlaylistActions, setEnabled, h]
  rw [key]
  refine ⟨?_, ?_, ?_⟩
  · intro h; rw [if_neg (by omega)]
  · intro h; rw [if_pos (by omega)]
  · intro h; split
    · exact h
    · rfl


theorem updatePlaylistActions_play_witness :
    playlistOps.rowCount
      { viewOf ⟨[], -1⟩ [] with actions := fun _ => true }.playlistModel ≤ 0 ∧
    ({ viewOf ⟨[], -1⟩ [] with actions := fun _ => true } : PlaylistView Playlist).actions
      "play" = true ∧
    (updatePlaylistActions playlistOps
      { viewOf ⟨[], -1⟩ [] with actions := fun _ => true }).actions "play" = true :=
  ⟨by decide, rfl,
    (updatePlaylistActions_play playlistOps
      { viewOf ⟨[], -1⟩ [] with actions := fun _ => true }).2.2 rfl⟩

/-- C4: with an empty selection, `removeSelected`, `moveUpSelected` and
`moveDownSelected` change nothing: no call is made on the model, the model is
what it was, and the selection is still empty. -/
theorem selected_slots_noop_of_empty {M : Type} (P : PlaylistModel M) (v : PlaylistView M)
    (h : v.selection = []) :
    removeSelected P v = v ∧ moveUpSelected P v = v ∧ moveDownSelected P v = v ∧
    (removeSelected P v).requests = v.requests ∧
    (moveUpSelected P v).requests = v.requests ∧
    (moveDownSelected P v).requests = v.requests ∧
    (removeSelected P v).playlistModel = v.playlistModel ∧
    (moveUpSelected P v).playlistModel = v.playlistModel ∧
    (moveDownSelected P v).playlistModel = v.playlistModel ∧
    (removeSelected P v).selection = [] ∧
    (moveUpSelected P v).selection = [] ∧
    (moveDownSelected P v).selection = [] := by
  have hr : removeSelected P v = v := by simp [removeSelected, hasSelection, h]
  have hu : moveUpSelected P v = v := by simp [moveUpSelected, hasSelection, h]
  have hd : moveDownSelected P v = v := by simp [moveDownSelected, hasSelection, h]
  rw [hr, hu, hd]
  simp [h]

theorem selected_slots_noop_of_empty_witness :
    (viewOf ⟨[(10, 100), (11, 20)], 0⟩ []).selection = [] ∧
    removeSelected playlistOps (viewOf ⟨[(10, 100), (11, 20)], 0⟩ []) =
      viewOf ⟨[(10, 100), (11, 20)], 0⟩ [] :=
  ⟨rfl, (selected_slots_noop_of_empty playlistOps (viewOf ⟨[(10, 100), (11, 20)], 0⟩ []) rfl).1⟩

theorem mem_deleteRowsFrom {α : Type} (indexes : List QModelIndex) (l : List α) :
    ∀ (j : Int) (x : α), x ∈ deleteRowsFrom indexes j l ↔
      ∃ k : Nat, l[k]? = some x ∧ j + (k : Int) ∉ indexes.map QModelIndex.row := by
  induction l with
  | nil => intro j x; simp [deleteRowsFrom]
  | cons a r ih =>
    intro j x
    have e : ∀ k : Nat, j + ((k + 1 : Nat) : Int) = j + 1 + (k : Int) := by
      intro k
      push_cast
      ring
    unfold deleteRowsFrom
    split
    · rename_i hj
      rw [ih]
      constructor
      · rintro ⟨k, hk, hn⟩
        refine ⟨k + 1, by simpa using hk, ?_⟩
        rw [e]
        exact hn
      · rintro ⟨k, hk, hn⟩
        cases k with
        | zero => exact absurd (by simpa using hj) hn
        | succ k =>
          refine ⟨k, by simpa using hk, ?_⟩
          rw [e] at hn
          exact hn
    · rename_i hj
      rw [List.mem_cons, ih]
      constructor
      · rintro (h | ⟨k, hk, hn⟩)
        · exact ⟨0, by simp [h], by simpa using hj⟩
        · refine ⟨k + 1, by simpa using hk, ?_⟩
          rw [e]
          exact hn
      · rintro ⟨k, hk, hn⟩
        cases k with
        | zero => left; simpa using hk.symm
        | succ k =>
          right
          refine ⟨k, by simpa using hk, ?_⟩
          rw [e] at hn
          exact hn

theorem mem_deleteRows {α : Type} (indexes : List QModelIndex) (l : List α) (x : α) :
    x ∈ deleteRows indexes l ↔
      ∃ k : Nat, l[k]? = some x ∧ ∀ i ∈ indexes, i.row ≠ (k : Int) := by
  unfold deleteRows
  rw [mem_deleteRowsFrom]
  constructor
  · rintro ⟨k, hk, hn⟩
    refine ⟨k, hk, ?_⟩
    intro i hi heq
    apply hn
    rw [List.mem_map]
    exact ⟨i, hi, by rw [heq]; ring⟩
  · rintro ⟨k, hk, hn⟩
    refine ⟨k, hk, ?_⟩
    intro hmem
    rw [List.mem_map] at hmem
    obtain ⟨i, hi, heq⟩ := hmem
    exact hn i hi (by rw [heq]; ring)

theorem deleteRowsFrom_sublist {α : Type} (indexes : List QModelIndex) (l : List α) :
    ∀ j : Int, (deleteRowsFrom indexes j l).Sublist l := by
  induction l with
  | nil => intro j; exact List.Sublist.slnil
  | cons a r ih =>
    intro j
    unfold deleteRowsFrom
    split
    · exact List.Sublist.cons a (ih (j + 1))
    · exact List.Sublist.cons₂ a (ih (j + 1))

/-- C5: with a non-empty selection S, each slot makes exactly one call on the
model and hands it S as it is: `removeSelected` calls `removeIndexes(S)`,
`moveUpSelected` calls `move(S, true)` and `moveDownSelected` calls
`move(S, false)`.  So on a model whose `removeIndexes` deletes precisely the
rows it is given, the rows left after `removeSelected` are the rows that were
there, in their order, without those of S: a row is still there exactly when it
stood at a row number that no index of S has. -/
theorem selected_slots_request {M : Type} (P : PlaylistModel M) (v : PlaylistView M)
    (h : v.selection ≠ []) :
    (removeSelected P v).requests = v.requests ++ [ModelCall.removeIndexes v.selection] ∧
    (removeSelected P v).playlistModel = P.removeIndexes v.playlistModel v.selection ∧
    (moveUpSelected P v).requests = v.requests ++ [ModelCall.move v.selection true] ∧
    (moveUpSelected P v).playlistModel = P.move v.playlistModel v.selection true ∧
    (moveDownSelected P v).requests = v.requests ++ [ModelCall.move v.selection false] ∧
    (moveDownSelected P v).playlistModel = P.move v.playlistModel v.selection false ∧
    (∀ (α : Type) (rows : M → List α),
      (∀ m indexes, rows (P.removeIndexes m indexes) = deleteRows indexes (rows m)) →
      rows (removeSelected P v).playlistModel = deleteRows v.selection (rows v.playlistModel) ∧
      (rows (removeSelected P v).playlistModel).Sublist (rows v.playlistModel) ∧
      ∀ x, x ∈ rows (removeSelected P v).playlistModel ↔
        ∃ k : Nat, (rows v.playlistModel)[k]? = some x ∧
          ∀ i ∈ v.selection, i.row ≠ (k : Int)) := by
  have hs : hasSelection v = true := (hasSelection_eq_true_iff v).2 h
  have hr : removeSelected P v =
      { v with
        playlistModel := P.removeIndexes v.playlistModel v.selection,
        requests := v.requests ++ [ModelCall.removeIndexes v.selection] } := by
    simp [removeSelected, selectedIndexes, hs]
  have hu : moveUpSelected P v =
      { v with
        playlistModel := P.move v.playlistModel v.selection true,
        requests := v.requests ++ [ModelCall.move v.selection true] } := by
    simp [moveUpSelected, selectedIndexes, hs]
  have hd : moveDownSelected P v =
      { v with
        playlistModel := P.move v.playlistModel v.selection false,
        requests := v.requests ++ [ModelCall.move v.selection false] } := by
    simp [moveDownSelected, selectedIndexes, hs]
  rw [hr, hu, hd]
  refine ⟨rfl, rfl, rfl, rfl, rfl, rfl, ?_⟩
  intro α rows hdel
  dsimp only
  rw [hdel]
  exact ⟨rfl, deleteRowsFrom_sublist _ _ 0, fun x => mem_deleteRows _ _ x⟩

theorem selected_slots_request_witness :
    (viewOf ⟨[(10, 100), (11, 20), (12, 30), (13, 40)], 0⟩
        [⟨1, 0, true⟩, ⟨2, 0, true⟩]).selection ≠ [] ∧
    (removeSelected playlistOps (viewOf ⟨[(10, 100), (11, 20), (12, 30), (13, 40)], 0⟩
        [⟨1, 0, true⟩, ⟨2, 0, true⟩])).playlistModel.rows = [(10, 100), (13, 40)] := by
  refine ⟨by decide, ?_⟩
  have h := (selected_slots_request playlistOps
    (viewOf ⟨[(10, 100), (11, 20), (12, 30), (13, 40)], 0⟩ [⟨1, 0, true⟩, ⟨2, 0, true⟩])
    (by decide)).2.2.2.2.2.2 (Track × Int) Playlist.rows (fun _ _ => rfl)
  rw [h.1]
  decide

/-- C7: `itemActivated` calls `setActiveRow(index.row(), true)` on the model if
and only if the model reports `rowExists(index.row())`; when the row does not
exist it makes no call and leaves the model, and everything else, as it was. -/
theorem itemActivated_guard {M : Type} (P : PlaylistModel M) (v : PlaylistView M)
    (index : QModelIndex) :
    (P.rowExists v.playlistModel index.row = true →
      (itemActivated P v index).requests =
        v.requests ++ [ModelCall.setActiveRow index.row true] ∧
      (itemActivated P v index).playlistModel =
        P.setActiveRow v.playlistModel index.row true) ∧
    (P.rowExists v.playlistModel index.row = false → itemActivated P v index = v) ∧
    ((itemActivated P v index).requests ≠ v.requests ↔
      P.rowExists v.playlistModel index.row = true) := by
  cases hre : P.rowExists v.playlistModel index.row <;> simp [itemActivated, hre]

theorem itemActivated_guard_witness :
    playlistOps.rowExists (viewOf ⟨[(10, 100), (11, 20)], 0⟩ []).playlistModel
      (QModelIndex.mk 5 0 true).row = false ∧
    itemActivated playlistOps (viewOf ⟨[(10, 100), (11, 20)], 0⟩ []) ⟨5, 0, true⟩ =
      viewOf ⟨[(10, 100), (11, 20)], 0⟩ [] ∧
    playlistOps.rowExists (viewOf ⟨[(10, 100), (11, 20)], 0⟩ []).playlistModel
      (QModelIndex.mk (-1) (-1) false).row = false ∧
    itemActivated playlistOps (viewOf ⟨[(10, 100), (11, 20)], 0⟩ []) ⟨-1, -1, false⟩ =
      viewOf ⟨[(10, 100), (11, 20)], 0⟩ [] ∧
    playlistOps.rowExists (viewOf ⟨[(10, 100), (11, 20)], 0⟩ []).playlistModel
      (QModelIndex.mk 1 0 true).row = true ∧
    (itemActivated playlistOps (viewOf ⟨[(10, 100), (11, 20)], 0⟩ [])
      ⟨1, 0, true⟩).playlistModel.activeRow = 1 :=
  ⟨by decide,
    (itemActivated_guard playlistOps (viewOf ⟨[(10, 100), (11, 20)], 0⟩ []) ⟨5, 0, true⟩).2.1
      (by decide),
    by decide,
    (itemActivated_guard playlistOps (viewOf ⟨[(10, 100), (11, 20)], 0⟩ []) ⟨-1, -1, false⟩).2.1
      (by decide),
    by decide,
    by
      rw [((itemActivated_guard playlistOps (viewOf ⟨[(10, 100), (11, 20)], 0⟩ [])
        ⟨1, 0, true⟩).1 (by decide)).2]
      decide⟩

theorem mem_select (selection : List QModelIndex) (index i : QModelIndex) :
    i ∈ select selection index ↔ i ∈ selection ∨ i = index := by
  unfold select
  split
  · constructor
    · intro h; exact Or.inl h
    · rintro (h | h)
      · exact h
      · subst h; assumption
  · simp

theorem nodup_select (selection : List QModelIndex) (index : QModelIndex)
    (h : selection.Nodup) : (select selection index).Nodup := by
  unfold select
  split
  · exact h
  · rename_i hni
    rw [List.nodup_append]
    refine ⟨h, List.nodup_singleton _, ?_⟩
    intro a ha hb
    rw [List.mem_singleton] at hb
    subst hb
    exact hni ha

theorem selectTrack_frame {M : Type} (P : PlaylistModel M) (v : PlaylistView M) (t : Track) :
    (selectTrack P v t).playlistModel = v.playlistModel ∧
    (selectTrack P v t).requests = v.requests ∧
    (selectTrack P v t).actions = v.actions := by
  unfold selectTrack
  dsimp only
  split <;> exact ⟨rfl, rfl, rfl⟩

theorem foldl_selectTrack_frame {M : Type} (P : PlaylistModel M) (ts : List Track) :
    ∀ v : PlaylistView M,
      (ts.foldl (selectTrack P) v).playlistModel = v.playlistModel ∧
      (ts.foldl (selectTrack P) v).requests = v.requests ∧
      (ts.foldl (selectTrack P) v).actions = v.actions := by
  induction ts with
  | nil => intro v; exact ⟨rfl, rfl, rfl⟩
  | cons t ts ih =>
    intro v
    rw [List.foldl_cons]
    obtain ⟨h1, h2, h3⟩ := ih (selectTrack P v t)
    obtain ⟨g1, g2, g3⟩ := selectTrack_frame P v t
    exact ⟨h1.trans g1, h2.trans g2, h3.trans g3⟩

theorem foldl_selectTrack_selection {M : Type} (P : PlaylistModel M) (ts : List Track) :
    ∀ (v : PlaylistView M) (i : QModelIndex),
      i ∈ (ts.foldl (selectTrack P) v).selection ↔
        i ∈ v.selection ∨
          ∃ t ∈ ts, P.indexForTrack v.playlistModel t = i ∧ i.isValid = true := by
  induction ts with
  | nil => intro v i; simp
  | cons t ts ih =>
    intro v i
    rw [List.foldl_cons, ih (selectTrack P v t) i, (selectTrack_frame P v t).1]
    have hsel : i ∈ (selectTrack P v t).selection ↔
        i ∈ v.selection ∨ (P.indexForTrack v.playlistModel t = i ∧ i.isValid = true) := by
      unfold selectTrack
      dsimp only
      split
      · rename_i hv
        dsimp only
        rw [mem_select]
        constructor
        · rintro (h | h)
          · exact Or.inl h
          · subst h; exact Or.inr ⟨rfl, hv⟩
        · rintro (h | ⟨h, _⟩)
          · exact Or.inl h
          · exact Or.inr h.symm
      · rename_i hv
        dsimp only
        constructor
        · intro h; exact Or.inl h
        · rintro (h | ⟨h, h2⟩)
          · exact h
          · subst h; exact absurd h2 hv
    rw [hsel]
    simp only [List.mem_cons, exists_eq_or_imp]
    tauto

theorem foldl_selectTrack_nodup {M : Type} (P : PlaylistModel M) (ts : List Track) :
    ∀ v : PlaylistView M, v.selection.Nodup → (ts.foldl (selectTrack P) v).selection.Nodup := by
  induction ts with
  | nil => intro v h; exact h
  | cons t ts ih =>
    intro v h
    rw [List.foldl_cons]
    apply ih
    unfold selectTrack
    dsimp only
    split
    · exact nodup_select _ _ h
    · exact h

theorem foldl_selectTrack_warnings {M : Type} (P : PlaylistModel M) (ts : List Track) :
    ∀ v : PlaylistView M,
      (ts.foldl (selectTrack P) v).warnings.length =
        v.warnings.length +
          (ts.filter (fun t => !(P.indexForTrack v.playlistModel t).isValid)).length := by
  induction ts with
  | nil => intro v; simp
  | cons t ts ih =>
    intro v
    rw [List.foldl_cons, ih (selectTrack P v t), (selectTrack_frame P v t).1]
    cases hv : (P.indexForTrack v.playlistModel t).isValid
    · simp [selectTrack, hv, List.filter_cons]
      omega
    · simp [selectTrack, hv, List.filter_cons]

/-- C6: after `selectTracks(ts)` the selection is exactly the set of the valid
indexes `indexForTrack(t)` for `t` in `ts`: the selection there was before is
dropped, the row of every track that has one is selected (once), a track with
no valid index is passed over with one warning (so there are as many new
warnings as such tracks in `ts`, none when there is none), and the model is not
touched.  With `A` at row 2 and `B` not in the model, `selectTracks({A, B})`
leaves the selection {row 2} and one new warning. -/
theorem selectTracks_selection {M : Type} (P : PlaylistModel M) (v : PlaylistView M)
    (ts : List Track) :
    (∀ i, i ∈ (selectTracks P v ts).selection ↔
      ∃ t ∈ ts, P.indexForTrack v.playlistModel t = i ∧ i.isValid = true) ∧
    (selectTracks P v ts).selection.Nodup ∧
    (selectTracks P v ts).warnings.length =
      v.warnings.length +
        (ts.filter (fun t => !(P.indexForTrack v.playlistModel t).isValid)).length ∧
    ((∀ t ∈ ts, (P.indexForTrack v.playlistModel t).isValid = true) →
      (selectTracks P v ts).warnings = v.warnings) ∧
    (selectTracks P v ts).playlistModel = v.playlistModel ∧
    (selectTracks P v ts).requests = v.requests ∧
    (∀ A B : Track, P.indexForTrack v.playlistModel A = ⟨2, 0, true⟩ →
      (P.indexForTrack v.playlistModel B).isValid = false →
      (selectTracks P v [A, B]).selection = [⟨2, 0, true⟩] ∧
      (selectTracks P v [A, B]).warnings.length = v.warnings.length + 1) := by
  refine ⟨?_, ?_, ?_, ?_, ?_, ?_, ?_⟩
  · intro i
    unfold selectTracks
    rw [foldl_selectTrack_selection]
    simp
  · unfold selectTracks
    exact foldl_selectTrack_nodup P ts _ List.nodup_nil
  · unfold selectTracks
    rw [foldl_selectTrack_warnings]
  · intro hall
    unfold selectTracks

    suffices H : ∀ (l : List Track) (w : PlaylistView M), w.playlistModel = v.playlistModel →
        (∀ t ∈ l, (P.indexForTrack v.playlistModel t).isValid = true) →
        (l.foldl (selectTrack P) w).warnings = w.warnings from H ts _ rfl hall
    intro l
    induction l with
    | nil => intro w _ _; rfl
    | cons t l ih =>
      intro w hw hl
      rw [List.foldl_cons, ih (selectTrack P w t) ((selectTrack_frame P w t).1.trans hw)
        (fun t ht => hl t (List.mem_cons_of_mem _ ht))]
      have := hl t (List.mem_cons_self _ _)
      simp [selectTrack, hw, this]
  · unfold selectTracks
    exact (foldl_selectTrack_frame P ts _).1
  · unfold selectTracks
    exact (foldl_selectTrack_frame P ts _).2.1
  · intro A B hA hB
    have hAv : (QModelIndex.mk 2 0 true).isValid = true := rfl
    have h1 : selectTrack P { v with selection := [] } A =
        { v with selection := [⟨2, 0, true⟩] } := by
      simp [selectTrack, hAv, hA, select]
    have h2 : selectTrack P { v with selection := [⟨2, 0, true⟩] } B =
        { v with
          selection := [⟨2, 0, true⟩],
          warnings := v.warnings ++
            ["void PlaylistView::selectTracks(QList<Track*>) Invalid index"] } := by
      simp [selectTrack, hB]
    simp only [selectTracks, List.foldl_cons, List.foldl_nil, h1, h2]
    simp

theorem selectTracks_selection_witness :
    playlistOps.indexForTrack
      (viewOf ⟨[(10, 100), (11, 20), (7, 30)], 0⟩ [⟨0, 0, true⟩]).playlistModel 7 =
        ⟨2, 0, true⟩ ∧
    (playlistOps.indexForTrack
      (viewOf ⟨[(10, 100), (11, 20), (7, 30)], 0⟩ [⟨0, 0, true⟩]).playlistModel 9).isValid =
        false ∧
    (selectTracks playlistOps (viewOf ⟨[(10, 100), (11, 20), (7, 30)], 0⟩ [⟨0, 0, true⟩])
      [7, 9]).selection = [⟨2, 0, true⟩] ∧
    (selectTracks playlistOps (viewOf ⟨[(10, 100), (11, 20), (7, 30)], 0⟩ [⟨0, 0, true⟩])
      [7, 9]).warnings.length = 1 :=
  ⟨by decide, by decide,
    (selectTracks_selection playlistOps
      (viewOf ⟨[(10, 100), (11, 20), (7, 30)], 0⟩ [⟨0, 0, true⟩]) [7, 9]).2.2.2.2.2.2 7 9
      (by decide) (by decide)⟩

theorem tdiv_two_remainder (a : Int) :
    -1 ≤ a - 2 * Int.tdiv a 2 ∧ a - 2 * Int.tdiv a 2 ≤ 1 := by
  rcases Int.le_total 0 a with h | h
  · rw [Int.tdiv_eq_ediv h (by norm_num)]
    omega
  · have h2 : Int.tdiv a 2 = -(Int.tdiv (-a) 2) := by
      rw [Int.neg_tdiv]
      simp
    rw [h2, Int.tdiv_eq_ediv (by omega) (by norm_num)]
    omega

/-- C9: `paintEvent` draws the empty-state message if and only if the row count
is 0 and the message is not empty.  The rectangle it draws the text in has the
measured size of the text and its top left corner at ((W - tw) / 2,
(H - th) / 2), the division truncating as in C++, so that the margin left of it
and the margin right of it differ by at most 1 pixel, and so do the margin
above and the margin below. -/
theorem paintEvent_centered {M : Type} (P : PlaylistModel M) (fontMetricsSize : String → QSize)
    (v : PlaylistView M) :
    ((paintEvent P fontMetricsSize v).isSome = true ↔
      P.rowCount v.playlistModel = 0 ∧ v.emptyMessage ≠ "") ∧
    (∀ d, paintEvent P fontMetricsSize v = some d →
      d.text = v.emptyMessage ∧
      d.rect.width = (fontMetricsSize v.emptyMessage).width ∧
      d.rect.height = (fontMetricsSize v.emptyMessage).height ∧
      d.rect.topLeft =
        ⟨Int.tdiv (v.width - (fontMetricsSize v.emptyMessage).width) 2,
          Int.tdiv (v.height - (fontMetricsSize v.emptyMessage).height) 2⟩ ∧
      -1 ≤ (v.width - (d.rect.x1 + d.rect.width)) - d.rect.x1 ∧
      (v.width - (d.rect.x1 + d.rect.width)) - d.rect.x1 ≤ 1 ∧
      -1 ≤ (v.height - (d.rect.y1 + d.rect.height)) - d.rect.y1 ∧
      (v.height - (d.rect.y1 + d.rect.height)) - d.rect.y1 ≤ 1) := by
  by_cases hc : P.rowCount v.playlistModel = 0 ∧ v.emptyMessage ≠ ""
  · obtain ⟨h0, hm⟩ := hc
    have hne : v.emptyMessage.isEmpty = false := by
      cases he : v.emptyMessage.isEmpty
      · rfl
      · exact absurd ((String.isEmpty_iff _).1 he) hm
    have hp : paintEvent P fontMetricsSize v =
        some ⟨QRect.ofTopLeftSize
          ⟨Int.tdiv (v.width - (fontMetricsSize v.emptyMessage).width) 2,
            Int.tdiv (v.height - (fontMetricsSize v.emptyMessage).height) 2⟩
          (fontMetricsSize v.emptyMessage), v.emptyMessage⟩ := by
      simp [paintEvent, h0, hne]
    rw [hp]
    refine ⟨by simp [h0, hm], ?_⟩
    intro d hd
    injection hd with hd
    subst hd
    have hx := tdiv_two_remainder (v.width - (fontMetricsSize v.emptyMessage).width)
    have hy := tdiv_two_remainder (v.height - (fontMetricsSize v.emptyMessage).height)
    simp only [QRect.ofTopLeftSize, QRect.width, QRect.height, QRect.topLeft]
    refine ⟨trivial, by omega, by omega, trivial, by omega, by omega, by omega, by omega⟩
  · have hp : paintEvent P fontMetricsSize v = none := by
      unfold paintEvent
      rw [if_neg]
      intro hcond
      apply hc
      simp only [Bool.and_eq_true, beq_iff_eq, Bool.not_eq_true'] at hcond
      refine ⟨hcond.1, ?_⟩
      intro he
      rw [he] at hcond
      exact absurd hcond.2 (by decide)
    rw [hp]
    refine ⟨by simp; simpa using hc, ?_⟩
    intro d hd
    exact absurd hd (by simp)

theorem paintEvent_centered_witness :
    paintEvent playlistOps (fun _ => ⟨101, 20⟩)
        { viewOf ⟨[], -1⟩ [] with emptyMessage := "Drop tracks here" } =
      some ⟨⟨149, 140, 249, 159⟩, "Drop tracks here"⟩ ∧
    (QRect.mk 149 140 249 159).topLeft = ⟨149, 140⟩ :=
  ⟨by decide,
    ((paintEvent_centered playlistOps (fun _ => ⟨101, 20⟩)
      { viewOf ⟨[], -1⟩ [] with emptyMessage := "Drop tracks here" }).2
      ⟨⟨149, 140, 249, 159⟩, "Drop tracks here"⟩ (by decide)).2.2.2.1⟩

theorem arg_tracks (a b : String) :
    arg (tr "%1 tracks - Total length is %2") a b = a ++ " tracks - Total length is " ++ b := by
  apply String.ext
  simp [arg, tr, argChars, String.data_append]

theorem toString_h_mm_ss (t : QTime) (h : t.isValid = true) :
    t.toString "h:mm:ss" =
      number t.hour ++ ":" ++ rightJustified (number t.minute) 2 '0' ++ ":" ++
        rightJustified (number t.second) 2 '0' := by
  apply String.ext
  simp [QTime.toString, h, QTime.fmt, String.data_append]

theorem toString_m_ss (t : QTime) (h : t.isValid = true) :
    t.toString "m:ss" = number t.minute ++ ":" ++ rightJustified (number t.second) 2 '0' := by
  apply String.ext
  simp [QTime.toString, h, QTime.fmt, String.data_append]

theorem addSecs_null_mds (t : Int) (h0 : 0 ≤ t) (h1 : t ≤ 2147483) :
    (QTime.null.addSecs t).mds = t * 1000 % 86400000 := by
  have hw : wrap32 (t * 1000) = t * 1000 := by unfold wrap32; omega
  have hd : QTime.null.ds = 0 := rfl
  unfold QTime.addSecs QTime.addMSecs
  rw [hw, if_neg (by omega), hd]
  have hw2 : wrap32 (0 + t * 1000) = t * 1000 := by unfold wrap32; omega
  rw [hw2]
  show Int.tmod (t * 1000) MSECS_PER_DAY = _
  rw [MSECS_PER_DAY, Int.tmod_eq_emod (by omega) (by norm_num)]

theorem addSecs_null_fields (t : Int) (h0 : 0 ≤ t) (h1 : t ≤ 2147483) :
    (QTime.null.addSecs t).isValid = true ∧
    (QTime.null.addSecs t).hour = t / 3600 % 24 ∧
    (QTime.null.addSecs t).minute = t / 60 % 60 ∧
    (QTime.null.addSecs t).second = t % 60 := by
  have hm := addSecs_null_mds t h0 h1
  have hds : (QTime.null.addSecs t).ds = t * 1000 % 86400000 := by
    unfold QTime.ds
    rw [hm, if_neg (by omega)]
  refine ⟨?_, ?_, ?_, ?_⟩
  · simp only [QTime.isValid, hm, MSECS_PER_DAY, Bool.and_eq_true, decide_eq_true_eq]
    omega
  · unfold QTime.hour
    rw [hds, MSECS_PER_HOUR, Int.tdiv_eq_ediv (by omega) (by norm_num)]
    omega
  · unfold QTime.minute
    rw [hds, MSECS_PER_HOUR, MSECS_PER_MIN, Int.tmod_eq_emod (by omega) (by norm_num),
      Int.tdiv_eq_ediv (by omega) (by norm_num)]
    omega
  · unfold QTime.second
    rw [hds, SECS_PER_MIN, Int.tdiv_eq_ediv (by omega) (by norm_num),
      Int.tmod_eq_emod (by omega) (by norm_num)]
    omega

theorem statusTip_of_empty {M : Type} (P : PlaylistModel M) (v : PlaylistView M)
    (h : P.rowCount v.playlistModel < 1) :
    (updatePlaylistActions P v).statusTip = "Playlist is empty" := by
  simp [updatePlaylistActions, h, tr]

theorem statusTip_of_rows {M : Type} (P : PlaylistModel M) (v : PlaylistView M)
    (h : 1 ≤ P.rowCount v.playlistModel) :
    (updatePlaylistActions P v).statusTip =
      number (P.rowCount v.playlistModel) ++ " tracks - Total length is " ++
        playlistLength (P.getTotalLength v.playlistModel) := by
  have hn : ¬ P.rowCount v.playlistModel < 1 := by omega
  simp only [updatePlaylistActions, hn, decide_False, Bool.false_eq_true, if_false]
  exact arg_tracks _ _

/-- C3: the status tip set by `updatePlaylistActions` is "Playlist is empty"
when the row count n is less than 1, whatever the total length t; otherwise it
is "<n> tracks - Total length is <d>" with <n> the row count in decimal and <d>
the time t seconds after midnight in the format h:mm:ss when t > 3600 and in
the format m:ss when t <= 3600.  While t * 1000 fits an int, <d> is the hour
t / 3600 mod 24, the minute on two digits and the second on two digits in the
first case, the minute t / 60 mod 60 and the second on two digits in the
other.  For t = 59 the tip ends with "0:59", for t = 3661 with "1:01:01". -/
theorem updatePlaylistActions_statusTip {M : Type} (P : PlaylistModel M) (v : PlaylistView M) :
    (P.rowCount v.playlistModel < 1 →
      (updatePlaylistActions P v).statusTip = "Playlist is empty") ∧
    (1 ≤ P.rowCount v.playlistModel → 3600 < P.getTotalLength v.playlistModel →
      (updatePlaylistActions P v).statusTip =
        number (P.rowCount v.playlistModel) ++ " tracks - Total length is " ++
          (QTime.null.addSecs (P.getTotalLength v.playlistModel)).toString "h:mm:ss") ∧
    (1 ≤ P.rowCount v.playlistModel → P.getTotalLength v.playlistModel ≤ 3600 →
      (updatePlaylistActions P v).statusTip =
        number (P.rowCount v.playlistModel) ++ " tracks - Total length is " ++
          (QTime.null.addSecs (P.getTotalLength v.playlistModel)).toString "m:ss") ∧
    (1 ≤ P.rowCount v.playlistModel → 3600 < P.getTotalLength v.playlistModel →
      P.getTotalLength v.playlistModel ≤ 2147483 →
      (updatePlaylistActions P v).statusTip =
        number (P.rowCount v.playlistModel) ++ " tracks - Total length is " ++
          (number (P.getTotalLength v.playlistModel / 3600 % 24) ++ ":" ++
            rightJustified (number (P.getTotalLength v.playlistModel / 60 % 60)) 2 '0' ++ ":" ++
            rightJustified (number (P.getTotalLength v.playlistModel % 60)) 2 '0')) ∧
    (1 ≤ P.rowCount v.playlistModel → 0 ≤ P.getTotalLength v.playlistModel →
      P.getTotalLength v.playlistModel ≤ 3600 →
      (updatePlaylistActions P v).statusTip =
        number (P.rowCount v.playlistModel) ++ " tracks - Total length is " ++
          (number (P.getTotalLength v.playlistModel / 60 % 60) ++ ":" ++
            rightJustified (number (P.getTotalLength v.playlistModel % 60)) 2 '0')) ∧
    (1 ≤ P.rowCount v.playlistModel → P.getTotalLength v.playlistModel = 59 →
      (updatePlaylistActions P v).statusTip =
        number (P.rowCount v.playlistModel) ++ " tracks - Total length is " ++ "0:59") ∧
    (1 ≤ P.rowCount v.playlistModel → P.getTotalLength v.playlistModel = 3661 →
      (updatePlaylistActions P v).statusTip =
        number (P.rowCount v.playlistModel) ++ " tracks - Total length is " ++ "1:01:01") := by
  refine ⟨statusTip_of_empty P v, ?_, ?_, ?_, ?_, ?_, ?_⟩
  · intro hn ht
    rw [statusTip_of_rows P v hn, playlistLength, if_pos ht]
  · intro hn ht
    rw [statusTip_of_rows P v hn, playlistLength, if_neg (by omega)]
  · intro hn ht hb
    obtain ⟨hv, hh, hm, hs⟩ := addSecs_null_fields _ (by omega) hb
    rw [statusTip_of_rows P v hn, playlistLength, if_pos ht, toString_h_mm_ss _ hv, hh, hm, hs]
  · intro hn h0 ht
    obtain ⟨hv, _, hm, hs⟩ := addSecs_null_fields _ h0 (by omega)
    rw [statusTip_of_rows P v hn, playlistLength, if_neg (by omega), toString_m_ss _ hv, hm, hs]
  · intro hn ht
    rw [statusTip_of_rows P v hn, ht]
    rfl
  · intro hn ht
    rw [statusTip_of_rows P v hn, ht]
    rfl

theorem updatePlaylistActions_statusTip_witness :
    1 ≤ playlistOps.rowCount (viewOf ⟨[(10, 3600), (11, 61)], 0⟩ []).playlistModel ∧
    playlistOps.getTotalLength (viewOf ⟨[(10, 3600), (11, 61)], 0⟩ []).playlistModel = 3661 ∧
    (updatePlaylistActions playlistOps (viewOf ⟨[(10, 3600), (11, 61)], 0⟩ [])).statusTip =
      "2 tracks - Total length is 1:01:01" :=
  ⟨by decide, by decide,
    (updatePlaylistActions_statusTip playlistOps
      (viewOf ⟨[(10, 3600), (11, 61)], 0⟩ [])).2.2.2.2.2.2 (by decide) (by decide)⟩

theorem splitColon_of_not_mem (a : List Char) (h : ':' ∉ a) : splitColon a = [a] := by
  induction a with
  | nil => rfl
  | cons c r ih =>
    have hc : c ≠ ':' := fun e => h (by simp [e])
    have hr : ':' ∉ r := fun e => h (List.mem_cons_of_mem _ e)
    simp [splitColon, hc, ih hr]

theorem splitColon_append (a rest : List Char) (h : ':' ∉ a) :
    splitColon (a ++ ':' :: rest) = a :: splitColon rest := by
  induction a with
  | nil => simp [splitColon]
  | cons c r ih =>
    have hc : c ≠ ':' := fun e => h (by simp [e])
    have hr : ':' ∉ r := fun e => h (List.mem_cons_of_mem _ e)
    simp [splitColon, hc, ih hr]

theorem readNumber_number (k : Int) (h0 : 0 ≤ k) (h1 : k < 60) :
    ':' ∉ (number k).data ∧ readNumber (number k).data = some k := by
  interval_cases k <;> decide

theorem readNumber_rightJustified (k : Int) (h0 : 0 ≤ k) (h1 : k < 60) :
    ':' ∉ (rightJustified (number k) 2 '0').data ∧
    readNumber (rightJustified (number k) 2 '0').data = some k := by
  interval_cases k <;> decide

theorem readDuration_h_mm_ss (h m s : Int) (h0 : 0 ≤ h) (h1 : h < 60) (m0 : 0 ≤ m)
    (m1 : m < 60) (s0 : 0 ≤ s) (s1 : s < 60) :
    readDuration (number h ++ ":" ++ rightJustified (number m) 2 '0' ++ ":" ++
      rightJustified (number s) 2 '0') = some (h * 3600 + m * 60 + s) := by
  obtain ⟨a1, a2⟩ := readNumber_number h h0 h1
  obtain ⟨b1, b2⟩ := readNumber_rightJustified m m0 m1
  obtain ⟨c1, c2⟩ := readNumber_rightJustified s s0 s1
  have hd : (number h ++ ":" ++ rightJustified (number m) 2 '0' ++ ":" ++
      rightJustified (number s) 2 '0').data =
      (number h).data ++ ':' :: ((rightJustified (number m) 2 '0').data ++ ':' ::
        (rightJustified (number s) 2 '0').data) := by
    simp [String.data_append]
  unfold readDuration
  rw [hd, splitColon_append _ _ a1, splitColon_append _ _ b1, splitColon_of_not_mem _ c1]
  simp [a2, b2, c2]

theorem readDuration_m_ss (m s : Int) (m0 : 0 ≤ m) (m1 : m < 60) (s0 : 0 ≤ s) (s1 : s < 60) :
    readDuration (number m ++ ":" ++ rightJustified (number s) 2 '0') = some (m * 60 + s) := by
  obtain ⟨b1, b2⟩ := readNumber_number m m0 m1
  obtain ⟨c1, c2⟩ := readNumber_rightJustified s s0 s1
  have hd : (number m ++ ":" ++ rightJustified (number s) 2 '0').data =
      (number m).data ++ ':' :: (rightJustified (number s) 2 '0').data := by
    simp [String.data_append]
  unfold readDuration
  rw [hd, splitColon_append _ _ b1, splitColon_of_not_mem _ c1]
  simp [b2, c2]

/-- Away from one hour sharp, the duration text of `updatePlaylistActions` reads
back as the total length: for 0 <= t < 86400 and t different from 3600,
`readDuration (playlistLength t)` is t. -/
theorem readDuration_playlistLength (t : Int) (h0 : 0 ≤ t) (h1 : t < 86400) (h2 : t ≠ 3600) :
    readDuration (playlistLength t) = some t := by
  obtain ⟨hv, hh, hm, hs⟩ := addSecs_null_fields t h0 (by omega)
  unfold playlistLength
  split
  · rw [toString_h_mm_ss _ hv, hh, hm, hs,
      readDuration_h_mm_ss _ _ _ (by omega) (by omega) (by omega) (by omega) (by omega) (by omega)]
    congr 1
    omega
  · rw [toString_m_ss _ hv, hm, hs,
      readDuration_m_ss _ _ (by omega) (by omega) (by omega) (by omega)]
    congr 1
    omega

theorem readDuration_playlistLength_witness :
    (0 : Int) ≤ 3661 ∧ readDuration (playlistLength 3661) = some 3661 :=
  ⟨by decide, readDuration_playlistLength 3661 (by decide) (by decide) (by decide)⟩

/-- C10 fails at one hour sharp: for a playlist of one track of 3600 seconds
`updatePlaylistActions` takes the format m:ss (3600 > 3600 is false), the
duration text is "0:00" and the status tip "1 tracks - Total length is 0:00";
read back, the text stands for 0 seconds, not for 3600. -/
theorem updatePlaylistActions_one_hour :
    playlistOps.rowCount (viewOf ⟨[(10, 3600)], 0⟩ []).playlistModel = 1 ∧
    playlistOps.getTotalLength (viewOf ⟨[(10, 3600)], 0⟩ []).playlistModel = 3600 ∧
    (updatePlaylistActions playlistOps (viewOf ⟨[(10, 3600)], 0⟩ [])).statusTip =
      "1 tracks - Total length is 0:00" ∧
    playlistLength 3600 = "0:00" ∧
    readDuration (playlistLength 3600) = some 0 ∧
    readDuration (playlistLength 3600) ≠ some 3600 := by
  decide

end Musique
